import Mathlib

/-
Verification of the libhandlegraph path-name codec (src/path_metadata.cpp).

The codec classifies a path name string into a "sense" (generic, reference,
haplotype) and extracts sample, locus, haplotype, phase block and subrange
fields, by matching the ECMAScript regex

  FORMAT = ([^[#]*)(?:#([^[#]*))?(?:#([^[#]*))?(?:#(\d+))?(?:\[(\d+)(?:-(\d+))\])?

anchored at both ends (std::regex_match).  Because every character class in
the pattern excludes the delimiter that follows it ('#' and '[' are excluded
from components, '-' and ']' are not digits), leftmost-greedy matching is
deterministic: each optional group is taken exactly when its leading
delimiter is the next character, each class consumes its maximal run, and
whenever a present optional group can complete the whole match the engine
prefers it (if the skipped alternative could finish, shifting its component
one group earlier also finishes, so present-first never loses a match).
matchFORMAT below implements exactly that deterministic procedure, so it
agrees with std::regex_match(path_name, result, FORMAT) on every input.

Numerals are converted with std::stoll (optional leading C whitespace,
optional sign, a nonempty run of decimal digits, trailing characters
ignored, std::invalid_argument otherwise), modelled by stoll returning
Except.  Arbitrary-precision Int stands in for int64_t: none of the
statements below involve values near the int64 range, where C++ stoll
would raise out_of_range instead.  Stream insertion of an int64_t prints
decimal digits with a leading minus for negatives, modelled by intString.
-/

namespace handlegraph

/-- The three path senses of PathMetadata. -/
inductive Sense
  | SENSE_GENERIC
  | SENSE_REFERENCE
  | SENSE_HAPLOTYPE
deriving DecidableEq, Repr

/-- PathMetadata::NO_SAMPLE_NAME. -/
def NO_SAMPLE_NAME : String := ""

/-- PathMetadata::NO_LOCUS_NAME. -/
def NO_LOCUS_NAME : String := ""

/-- PathMetadata::NO_HAPLOTYPE. -/
def NO_HAPLOTYPE : Int := -1

/-- PathMetadata::NO_PHASE_BLOCK. -/
def NO_PHASE_BLOCK : Int := -1

/-- PathMetadata::NO_END_POSITION. -/
def NO_END_POSITION : Int := -1

/-- PathMetadata::NO_SUBRANGE. -/
def NO_SUBRANGE : Int × Int := (-1, NO_END_POSITION)

/-- A character a name component may contain: anything but '#' and '['
(the class [^[#] of the FORMAT regex). -/
def isCompChar (c : Char) : Bool := c ≠ '#' && c ≠ '['

/-- A decimal digit (the class \d of the FORMAT regex). -/
def isDigitChar (c : Char) : Bool := 48 ≤ c.toNat && c.toNat ≤ 57

/-- C isspace in the default locale, used by std::stoll to skip leading
whitespace: space and the five control characters 9..13. -/
def isCppSpace (c : Char) : Bool := c.toNat = 32 || (9 ≤ c.toNat && c.toNat ≤ 13)

/-- Value of a big-endian run of decimal digit characters. -/
def digitsToNat (l : List Char) : Nat := l.foldl (fun a c => 10 * a + (c.toNat - 48)) 0

/-- std::stoll on a std::string (base 10): skip C whitespace, optional
sign, then a nonempty digit run whose value is returned; any trailing
characters are ignored; no digits means std::invalid_argument. -/
def stoll (s : String) : Except String Int :=
  match s.data.dropWhile isCppSpace with
  | [] => .error "stoll: invalid_argument"
  | c :: rest =>
    if c = '-' then
      let d := rest.takeWhile isDigitChar
      if d = [] then .error "stoll: invalid_argument" else .ok (-(digitsToNat d : Int))
    else if c = '+' then
      let d := rest.takeWhile isDigitChar
      if d = [] then .error "stoll: invalid_argument" else .ok ((digitsToNat d : Int))
    else
      let d := (c :: rest).takeWhile isDigitChar
      if d = [] then .error "stoll: invalid_argument" else .ok ((digitsToNat d : Int))

/-- The capture groups of one successful anchored FORMAT match:
group 1 always participates; groups 2-6 are optional. -/
structure FormatMatch where
  g1 : String
  g2 : Option String
  g3 : Option String
  g4 : Option String
  g5 : Option String
  g6 : Option String
deriving DecidableEq, Repr

/-- One optional component group (?:#([^[#]*))? : taken exactly when the
next character is '#', consuming the maximal component run after it. -/
def optComp : List Char → Option String × List Char
  | [] => (none, [])
  | c :: rest =>
    if c = '#' then (some (String.mk (rest.takeWhile isCompChar)), rest.dropWhile isCompChar)
    else (none, c :: rest)

/-- The optional phase-block group (?:#(\d+))? : taken when the next
character is '#' and at least one digit follows.  When '#' is next but no
digit follows, the present branch of the regex fails and the absent branch
leaves the '#' unconsumed, which nothing later can consume, so the whole
match fails either way; returning the input unchanged reproduces that. -/
def optPhase : List Char → Option String × List Char
  | [] => (none, [])
  | c :: rest =>
    if c = '#' then
      if rest.takeWhile isDigitChar = [] then (none, c :: rest)
      else (some (String.mk (rest.takeWhile isDigitChar)), rest.dropWhile isDigitChar)
    else (none, c :: rest)

/-- The optional range group (?:\[(\d+)(?:-(\d+))\])? of the FORMAT regex
as written: when a complete bracketed start-dash-end form is next it is
consumed, otherwise the group is absent (and a leading '[' then makes the
whole match fail at the end-of-input check, as in the regex). -/
def optRange : List Char → Option (String × String) × List Char
  | [] => (none, [])
  | c :: rest =>
    if c = '[' then
      let d1 := rest.takeWhile isDigitChar
      let r1 := rest.dropWhile isDigitChar
      if d1 = [] then (none, c :: rest) else
      match r1 with
      | [] => (none, c :: rest)
      | c2 :: r2 =>
        if c2 = '-' then
          let d2 := r2.takeWhile isDigitChar
          let r3 := r2.dropWhile isDigitChar
          if d2 = [] then (none, c :: rest) else
          match r3 with
          | [] => (none, c :: rest)
          | c3 :: r4 =>
            if c3 = ']' then (some (String.mk d1, String.mk d2), r4) else (none, c :: rest)
        else (none, c :: rest)
    else (none, c :: rest)

/-- std::regex_match(path_name, result, PathMetadata::FORMAT): the
deterministic leftmost-greedy anchored match of the FORMAT regex,
returning the capture groups on success. -/
def matchFORMAT (s : String) : Option FormatMatch :=
  let p2 := optComp (s.data.dropWhile isCompChar)
  let p3 := optComp p2.2
  let p4 := optPhase p3.2
  let p5 := optRange p4.2
  if p5.2 = [] then
    some ⟨String.mk (s.data.takeWhile isCompChar), p2.1, p3.1, p4.1,
      p5.1.map Prod.fst, p5.1.map Prod.snd⟩
  else none

/-- PathMetadata::parse_sense. -/
def parse_sense (path_name : String) : Sense :=
  match matchFORMAT path_name with
  | some r => if r.g4.isSome then .SENSE_HAPLOTYPE else .SENSE_REFERENCE
  | none => .SENSE_GENERIC

/-- PathMetadata::parse_sample_name. -/
def parse_sample_name (path_name : String) : String :=
  match matchFORMAT path_name with
  | some r => if r.g3.isSome || r.g2.isSome then r.g1 else NO_SAMPLE_NAME
  | none => NO_SAMPLE_NAME

/-- PathMetadata::parse_locus_name. -/
def parse_locus_name (path_name : String) : String :=
  match matchFORMAT path_name with
  | some r =>
    match r.g3 with
    | some l3 => l3
    | none =>
      match r.g2 with
      | some l2 => l2
      | none => r.g1
  | none => path_name

/-- PathMetadata::parse_haplotype (std::stoll may fail, modelled by Except). -/
def parse_haplotype (path_name : String) : Except String Int :=
  match matchFORMAT path_name with
  | some r => if r.g3.isSome then stoll (r.g2.getD "") else .ok NO_HAPLOTYPE
  | none => .ok NO_HAPLOTYPE

/-- PathMetadata::parse_phase_block. -/
def parse_phase_block (path_name : String) : Except String Int :=
  match matchFORMAT path_name with
  | some r =>
    match r.g4 with
    | some p => stoll p
    | none => .ok NO_PHASE_BLOCK
  | none => .ok NO_PHASE_BLOCK

/-- PathMetadata::parse_subrange. -/
def parse_subrange (path_name : String) : Except String (Int × Int) :=
  match matchFORMAT path_name with
  | some r =>
    match r.g5 with
    | some s5 =>
      match stoll s5 with
      | .error e => .error e
      | .ok st =>
        match r.g6 with
        | some s6 =>
          match stoll s6 with
          | .error e => .error e
          | .ok en => .ok (st, en)
        | none => .ok (st, NO_SUBRANGE.2)
    | none => .ok NO_SUBRANGE
  | none => .ok NO_SUBRANGE

/-- All six fields extracted by PathMetadata::parse_path_name. -/
structure ParsedName where
  sense : Sense
  sample : String
  locus : String
  haplotype : Int
  phase_block : Int
  subrange : Int × Int
deriving DecidableEq, Repr

/-- PathMetadata::parse_path_name: the all-fields extraction, independently
re-running the match exactly as the C++ function does. -/
def parse_path_name (path_name : String) : Except String ParsedName :=
  match matchFORMAT path_name with
  | some r =>
    let sense := if r.g4.isSome then Sense.SENSE_HAPLOTYPE else Sense.SENSE_REFERENCE
    let slh : Except String (String × String × Int) :=
      match r.g3 with
      | some l3 =>
        match stoll (r.g2.getD "") with
        | .error e => .error e
        | .ok h => .ok (r.g1, l3, h)
      | none =>
        match r.g2 with
        | some l2 => .ok (r.g1, l2, NO_HAPLOTYPE)
        | none => .ok (NO_SAMPLE_NAME, r.g1, NO_HAPLOTYPE)
    match slh with
    | .error e => .error e
    | .ok (sample, locus, haplotype) =>
      let pb : Except String Int :=
        match r.g4 with
        | some p => stoll p
        | none => .ok NO_PHASE_BLOCK
      match pb with
      | .error e => .error e
      | .ok phase_block =>
        let sub : Except String (Int × Int) :=
          match r.g5 with
          | some s5 =>
            match stoll s5 with
            | .error e => .error e
            | .ok st =>
              match r.g6 with
              | some s6 =>
                match stoll s6 with
                | .error e => .error e
                | .ok en => .ok (st, en)
              | none => .ok (st, NO_END_POSITION)
          | none => .ok NO_SUBRANGE
        match sub with
        | .error e => .error e
        | .ok subrange => .ok ⟨sense, sample, locus, haplotype, phase_block, subrange⟩
  | none =>
    .ok ⟨.SENSE_GENERIC, NO_SAMPLE_NAME, path_name, NO_HAPLOTYPE, NO_PHASE_BLOCK, NO_SUBRANGE⟩

/-- The sense computation of parse_path_name on a successful match, named
for reasoning (definitionally the code inlined above). -/
def senseOf (r : FormatMatch) : Sense :=
  if r.g4.isSome then .SENSE_HAPLOTYPE else .SENSE_REFERENCE

/-- The sample/locus/haplotype computation of parse_path_name on a
successful match, named for reasoning (definitionally the code inlined
above). -/
def slhOf (r : FormatMatch) : Except String (String × String × Int) :=
  match r.g3 with
  | some l3 =>
    match stoll (r.g2.getD "") with
    | .error e => .error e
    | .ok h => .ok (r.g1, l3, h)
  | none =>
    match r.g2 with
    | some l2 => .ok (r.g1, l2, NO_HAPLOTYPE)
    | none => .ok (NO_SAMPLE_NAME, r.g1, NO_HAPLOTYPE)

/-- The phase-block computation of parse_path_name on a successful match,
named for reasoning (definitionally the code inlined above). -/
def pbOf (r : FormatMatch) : Except String Int :=
  match r.g4 with
  | some p => stoll p
  | none => .ok NO_PHASE_BLOCK

/-- The subrange computation of parse_path_name on a successful match,
named for reasoning (definitionally the code inlined above). -/
def subOf (r : FormatMatch) : Except String (Int × Int) :=
  match r.g5 with
  | some s5 =>
    match stoll s5 with
    | .error e => .error e
    | .ok st =>
      match r.g6 with
      | some s6 =>
        match stoll s6 with
        | .error e => .error e
        | .ok en => .ok (st, en)
      | none => .ok (st, NO_END_POSITION)
  | none => .ok NO_SUBRANGE

/-- Digit character for a value below ten. -/
def digitChar : Nat → Char
  | 0 => '0'
  | 1 => '1'
  | 2 => '2'
  | 3 => '3'
  | 4 => '4'
  | 5 => '5'
  | 6 => '6'
  | 7 => '7'
  | 8 => '8'
  | _ => '9'

/-- Little-endian decimal digits of a natural number, with explicit fuel so
that the definition is structurally recursive and kernel-evaluable. -/
def natDigitsRevAux : Nat → Nat → List Char
  | 0, _ => []
  | fuel + 1, n => if n < 10 then [digitChar n] else digitChar (n % 10) :: natDigitsRevAux fuel (n / 10)

/-- Little-endian decimal digits of a natural number. -/
def natDigitsRev (n : Nat) : List Char := natDigitsRevAux (n + 1) n

/-- Decimal representation of a natural number. -/
def natDecStr (n : Nat) : String := String.mk (natDigitsRev n).reverse

/-- Decimal printing of an int64_t by a std::ostream (operator context of
create_path_name): digits with a leading minus for negatives. -/
def intString (i : Int) : String :=
  if i < 0 then String.mk ('-' :: (natDigitsRev (-i).toNat).reverse) else natDecStr i.toNat

/-- PathMetadata::SEPARATOR. -/
def SEPARATOR : Char := '#'

/-- PathMetadata::RANGE_START_SEPARATOR. -/
def RANGE_START_SEPARATOR : Char := '['

/-- PathMetadata::RANGE_END_SEPARATOR. -/
def RANGE_END_SEPARATOR : Char := '-'

/-- PathMetadata::RANGE_TERMINATOR. -/
def RANGE_TERMINATOR : Char := ']'

/-- PathMetadata::create_path_name: sequential name builder with
validation, throwing (modelled by Except.error) on contradictory
sense/field combinations, otherwise appending sample prefix, locus,
haplotype suffix, phase-block suffix and range suffix in that order,
exactly as the statements of the C++ function execute. -/
def create_path_name (sense : Sense) (sample : String) (locus : String)
    (haplotype : Int) (phase_block : Int) (subrange : Int × Int) : Except String String :=
  let b1e : Except String String :=
    if sample ≠ NO_SAMPLE_NAME then
      if sense = .SENSE_GENERIC then .error "Generic path must have a sample"
      else .ok (sample.push SEPARATOR)
    else .ok ""
  match b1e with
  | .error e => .error e
  | .ok b1 =>
    let b2e : Except String String :=
      if locus ≠ NO_LOCUS_NAME then .ok (b1 ++ locus)
      else if sense = .SENSE_GENERIC then .error "Generic path must have a locus/name"
      else if sense = .SENSE_REFERENCE then .error "Referecne path must have a locus"
      else .error "Haplotype path must have a locus"
    match b2e with
    | .error e => .error e
    | .ok b2 =>
      let b3e : Except String String :=
        if haplotype ≠ NO_HAPLOTYPE then
          if sense = .SENSE_GENERIC then .error "Generic path must have a haplotype number"
          else .ok (b2.push SEPARATOR ++ intString haplotype)
        else
          if sense = .SENSE_HAPLOTYPE then .error "Haplotype path must have a haplotype number"
          else .ok b2
      match b3e with
      | .error e => .error e
      | .ok b3 =>
        let b4e : Except String String :=
          if phase_block ≠ NO_PHASE_BLOCK then
            if sense = .SENSE_GENERIC then .error "Generic path must have a phase block"
            else if sense = .SENSE_REFERENCE then .error "Reference path must have a phase block"
            else .ok (b3.push SEPARATOR ++ intString phase_block)
          else
            if sense = .SENSE_HAPLOTYPE then .error "Haplotype path must have a phase block"
            else .ok b3
        match b4e with
        | .error e => .error e
        | .ok b4 =>
          if subrange ≠ NO_SUBRANGE then
            .ok ((b4.push RANGE_START_SEPARATOR ++ intString subrange.1
              ++ (if subrange.2 ≠ NO_END_POSITION
                  then String.mk ('-' :: (intString subrange.2).data) else "")).push RANGE_TERMINATOR)
          else .ok b4

/-- The external enumeration primitive (for_each_path_handle_impl of the
PathHandleGraph collaborator) modelled on an explicit handle sequence: the
iteratee is invoked on each handle in order until one returns false; the
result is the continue/stop outcome together with the list of handles the
iteratee was actually invoked on, in invocation order. -/
def for_each_path_handle_impl {H : Type} (handles : List H) (iteratee : H → Bool) : Bool × List H :=
  match handles with
  | [] => (true, [])
  | h :: rest =>
    if iteratee h then
      let p := for_each_path_handle_impl rest iteratee
      (p.1, h :: p.2)
    else (false, [h])

/-- The filtering lambda PathMetadata::for_each_path_matching_impl passes
to for_each_path_handle_impl: skip (continue) when a supplied set misses
the handle's derived sense, sample or locus, otherwise defer to the
caller's iteratee. -/
def matching_iteratee {H : Type} (get_path_name : H → String) (senses : Option (List Sense))
    (samples : Option (List String)) (loci : Option (List String))
    (iteratee : H → Bool) (handle : H) : Bool :=
  if senses.isSome && !((senses.getD []).contains (parse_sense (get_path_name handle))) then true
  else if samples.isSome && !((samples.getD []).contains (parse_sample_name (get_path_name handle))) then true
  else if loci.isSome && !((loci.getD []).contains (parse_locus_name (get_path_name handle))) then true
  else iteratee handle

/-- PathMetadata::for_each_path_matching_impl over the modelled
enumeration primitive. -/
def for_each_path_matching_impl {H : Type} (get_path_name : H → String) (handles : List H)
    (senses : Option (List Sense)) (samples : Option (List String)) (loci : Option (List String))
    (iteratee : H → Bool) : Bool :=
  (for_each_path_handle_impl handles (matching_iteratee get_path_name senses samples loci iteratee)).1

/-- A handle satisfies all three optional filter sets (an absent set
constrains nothing). -/
def path_matches {H : Type} (get_path_name : H → String) (senses : Option (List Sense))
    (samples : Option (List String)) (loci : Option (List String)) (handle : H) : Bool :=
  (match senses with | some ss => ss.contains (parse_sense (get_path_name handle)) | none => true) &&
  (match samples with | some ss => ss.contains (parse_sample_name (get_path_name handle)) | none => true) &&
  (match loci with | some ls => ls.contains (parse_locus_name (get_path_name handle)) | none => true)

instance {e a : Type} [DecidableEq e] [DecidableEq a] : DecidableEq (Except e a) := fun x y =>
  match x, y with
  | .ok u, .ok v => if h : u = v then isTrue (by rw [h]) else isFalse (by simp [h])
  | .error u, .error v => if h : u = v then isTrue (by rw [h]) else isFalse (by simp [h])
  | .ok _, .error _ => isFalse (by simp)
  | .error _, .ok _ => isFalse (by simp)

/-- The contradictory sense/field combinations that the specification says
create_path_name must reject: a transcription of the claimed failure set,
to be compared with the behaviour of create_path_name. -/
def createNameBadCombo (sense : Sense) (sample locus : String)
    (haplotype phase_block : Int) : Bool :=
  (sample ≠ NO_SAMPLE_NAME && sense = .SENSE_GENERIC) ||
  (locus = NO_LOCUS_NAME) ||
  (haplotype ≠ NO_HAPLOTYPE && sense = .SENSE_GENERIC) ||
  (haplotype = NO_HAPLOTYPE && sense = .SENSE_HAPLOTYPE) ||
  (phase_block ≠ NO_PHASE_BLOCK && (sense = .SENSE_GENERIC || sense = .SENSE_REFERENCE)) ||
  (phase_block = NO_PHASE_BLOCK && sense = .SENSE_HAPLOTYPE)

/-- The fixed concatenation the specification says create_path_name emits
on success: sample prefix, locus, haplotype suffix, phase-block suffix,
range suffix, in that order. -/
def createNameConcat (sample locus : String) (haplotype phase_block : Int)
    (subrange : Int × Int) : String :=
  let b1 := if sample ≠ NO_SAMPLE_NAME then sample.push SEPARATOR else ""
  let b2 := b1 ++ locus
  let b3 := if haplotype ≠ NO_HAPLOTYPE then b2.push SEPARATOR ++ intString haplotype else b2
  let b4 :=
    if phase_block ≠ NO_PHASE_BLOCK then b3.push SEPARATOR ++ intString phase_block else b3
  if subrange ≠ NO_SUBRANGE then
    (b4.push RANGE_START_SEPARATOR ++ intString subrange.1 ++
      (if subrange.2 ≠ NO_END_POSITION
        then String.mk ('-' :: (intString subrange.2).data) else "")).push RANGE_TERMINATOR
  else b4

theorem data_mk (l : List Char) : (String.mk l).data = l := rfl

theorem mk_data (s : String) : String.mk s.data = s := rfl

theorem data_append (a b : String) : (a ++ b).data = a.data ++ b.data := rfl

theorem data_push (s : String) (c : Char) : (s.push c).data = s.data ++ [c] := rfl

theorem takeWhile_cons_neg {p : Char → Bool} {c : Char} (l : List Char) (h : p c = false) :
    (c :: l).takeWhile p = [] := by
  simp [List.takeWhile, h]

theorem dropWhile_cons_neg {p : Char → Bool} {c : Char} (l : List Char) (h : p c = false) :
    (c :: l).dropWhile p = c :: l := by
  simp [List.dropWhile, h]

theorem takeWhile_append_all {p : Char → Bool} {l1 : List Char} (l2 : List Char)
    (h : ∀ c ∈ l1, p c = true) : (l1 ++ l2).takeWhile p = l1 ++ l2.takeWhile p := by
  induction l1 with
  | nil => simp
  | cons c t ih =>
    have hc : p c = true := h c (by simp)
    simp [List.takeWhile, hc]
    exact ih (fun d hd => h d (by simp [hd]))

theorem dropWhile_append_all {p : Char → Bool} {l1 : List Char} (l2 : List Char)
    (h : ∀ c ∈ l1, p c = true) : (l1 ++ l2).dropWhile p = l2.dropWhile p := by
  induction l1 with
  | nil => simp
  | cons c t ih =>
    have hc : p c = true := h c (by simp)
    simp [List.dropWhile, hc]
    exact ih (fun d hd => h d (by simp [hd]))

theorem takeWhile_all {p : Char → Bool} {l : List Char} (h : ∀ c ∈ l, p c = true) :
    l.takeWhile p = l := by
  have := takeWhile_append_all [] h
  simpa using this

theorem dropWhile_all {p : Char → Bool} {l : List Char} (h : ∀ c ∈ l, p c = true) :
    l.dropWhile p = [] := by
  have := dropWhile_append_all [] h
  simpa using this

theorem isDigit_bounds {c : Char} (h : isDigitChar c = true) : 48 ≤ c.toNat ∧ c.toNat ≤ 57 := by
  simpa [isDigitChar] using h

theorem digit_ne {c d : Char} (h : isDigitChar c = true) (hd : d.toNat < 48 ∨ 57 < d.toNat) :
    ¬ c = d := by
  obtain ⟨h1, h2⟩ := isDigit_bounds h
  intro e
  subst e
  omega

theorem digit_isComp {c : Char} (h : isDigitChar c = true) : isCompChar c = true := by
  have hs : ¬ c = '#' := digit_ne h (by left; decide)
  have hb : ¬ c = '[' := digit_ne h (by right; decide)
  simp [isCompChar, hs, hb]

theorem digit_not_space {c : Char} (h : isDigitChar c = true) : isCppSpace c = false := by
  obtain ⟨h1, h2⟩ := isDigit_bounds h
  simp [isCppSpace]
  omega

theorem digitChar_isDigit (k : Nat) : isDigitChar (digitChar k) = true := by
  rcases k with _|_|_|_|_|_|_|_|_|k <;> rfl

theorem digitChar_val {k : Nat} (h : k < 10) : (digitChar k).toNat = 48 + k := by
  interval_cases k <;> rfl

theorem digitsToNat_append (l : List Char) (c : Char) :
    digitsToNat (l ++ [c]) = 10 * digitsToNat l + (c.toNat - 48) := by
  simp [digitsToNat, List.foldl_append]

theorem natDigitsRevAux_digits : ∀ (f n : Nat), ∀ c ∈ natDigitsRevAux f n, isDigitChar c = true := by
  intro f
  induction f with
  | zero => intro n c hc; simp [natDigitsRevAux] at hc
  | succ f ih =>
    intro n c hc
    unfold natDigitsRevAux at hc
    by_cases h : n < 10
    · simp [h] at hc
      subst hc
      exact digitChar_isDigit n
    · simp [h] at hc
      rcases hc with hc | hc
      · subst hc
        exact digitChar_isDigit (n % 10)
      · exact ih (n / 10) c hc

theorem natDigitsRevAux_ne_nil (f n : Nat) (hf : 0 < f) : natDigitsRevAux f n ≠ [] := by
  cases f with
  | zero => omega
  | succ f =>
    unfold natDigitsRevAux
    split <;> simp

theorem natDigitsRevAux_val : ∀ (f n : Nat), n < f → digitsToNat (natDigitsRevAux f n).reverse = n := by
  intro f
  induction f with
  | zero => intro n h; omega
  | succ f ih =>
    intro n h
    unfold natDigitsRevAux
    by_cases h10 : n < 10
    · simp [h10, digitsToNat]
      rw [digitChar_val h10]
      omega
    · simp [h10, List.reverse_cons, digitsToNat_append]
      have hd : n / 10 < n := Nat.div_lt_self (by omega) (by omega)
      rw [ih (n / 10) (by omega)]
      rw [digitChar_val (Nat.mod_lt n (by omega))]
      have := Nat.div_add_mod n 10
      omega

theorem natDecStr_digits (n : Nat) : ∀ c ∈ (natDecStr n).data, isDigitChar c = true := by
  intro c hc
  simp [natDecStr, natDigitsRev] at hc
  exact natDigitsRevAux_digits (n + 1) n c hc

theorem natDecStr_ne_nil (n : Nat) : (natDecStr n).data ≠ [] := by
  simp [natDecStr, natDigitsRev]
  exact natDigitsRevAux_ne_nil (n + 1) n (by omega)

theorem digitsToNat_natDecStr (n : Nat) : digitsToNat (natDecStr n).data = n :=
  natDigitsRevAux_val (n + 1) n (by omega)

theorem stoll_digit_list {l : List Char} (hne : l ≠ []) (hd : ∀ c ∈ l, isDigitChar c = true) :
    stoll (String.mk l) = .ok ((digitsToNat l : Nat) : Int) := by
  cases l with
  | nil => exact absurd rfl hne
  | cons c rest =>
    have hc := hd c (by simp)
    have hdash : ¬ c = '-' := digit_ne hc (by left; decide)
    have hplus : ¬ c = '+' := digit_ne hc (by left; decide)
    unfold stoll
    rw [data_mk, dropWhile_cons_neg rest (digit_not_space hc)]
    simp [hdash, hplus, takeWhile_all hd]

theorem stoll_natDecStr (n : Nat) : stoll (natDecStr n) = .ok (n : Int) := by
  have h := stoll_digit_list (natDecStr_ne_nil n) (natDecStr_digits n)
  rw [mk_data] at h
  rw [h, digitsToNat_natDecStr]

theorem intString_of_nonneg {i : Int} (h : 0 ≤ i) : intString i = natDecStr i.toNat := by
  simp [intString, not_lt.mpr h]

theorem stoll_intString {i : Int} (h : 0 ≤ i) : stoll (intString i) = .ok i := by
  rw [intString_of_nonneg h, stoll_natDecStr, Int.toNat_of_nonneg h]

theorem optComp_nil : optComp [] = (none, []) := rfl

theorem optComp_cons_ne {c : Char} (t : List Char) (h : ¬ c = '#') :
    optComp (c :: t) = (none, c :: t) := by
  simp [optComp, h]

theorem optComp_hash (t : List Char) :
    optComp ('#' :: t) = (some (String.mk (t.takeWhile isCompChar)), t.dropWhile isCompChar) := by
  simp [optComp]

theorem optPhase_nil : optPhase [] = (none, []) := rfl

theorem optPhase_cons_ne {c : Char} (t : List Char) (h : ¬ c = '#') :
    optPhase (c :: t) = (none, c :: t) := by
  simp [optPhase, h]

theorem optRange_nil : optRange [] = (none, []) := rfl

theorem optRange_cons_ne {c : Char} (t : List Char) (h : ¬ c = '[') :
    optRange (c :: t) = (none, c :: t) := by
  simp [optRange, h]

theorem optPhase_digits {l : List Char} {p : String} {r : List Char}
    (h : optPhase l = (some p, r)) : p.data ≠ [] ∧ ∀ c ∈ p.data, isDigitChar c = true := by
  cases l with
  | nil => simp [optPhase] at h
  | cons c t =>
    by_cases hc : c = '#'
    · subst hc
      by_cases ht : t.takeWhile isDigitChar = []
      · simp [optPhase, ht] at h
      · simp [optPhase, ht] at h
        obtain ⟨hp, _⟩ := h
        subst hp
        refine ⟨by simpa [data_mk] using ht, ?_⟩
        intro d hd
        rw [data_mk] at hd
        exact List.mem_takeWhile_imp hd
    · simp [optPhase, hc] at h

theorem optRange_digits {l : List Char} {ab : String × String} {r : List Char}
    (h : optRange l = (some ab, r)) :
    (ab.1.data ≠ [] ∧ ∀ c ∈ ab.1.data, isDigitChar c = true) ∧
    (ab.2.data ≠ [] ∧ ∀ c ∈ ab.2.data, isDigitChar c = true) := by
  cases l with
  | nil => simp [optRange] at h
  | cons c t =>
    by_cases hc : c = '['
    · subst hc
      rw [optRange] at h
      simp only [if_pos rfl] at h
      by_cases h1 : t.takeWhile isDigitChar = []
      · simp [h1] at h
      · simp only [if_neg h1] at h
        cases hr1 : t.dropWhile isDigitChar with
        | nil => rw [hr1] at h; simp at h
        | cons c2 r2 =>
          rw [hr1] at h
          by_cases hc2 : c2 = '-'
          · simp only [if_pos hc2] at h
            by_cases h2 : r2.takeWhile isDigitChar = []
            · simp [h2] at h
            · simp only [if_neg h2] at h
              cases hr3 : r2.dropWhile isDigitChar with
              | nil => rw [hr3] at h; simp at h
              | cons c3 r4 =>
                rw [hr3] at h
                by_cases hc3 : c3 = ']'
                · simp only [if_pos hc3] at h
                  rw [Prod.mk.injEq] at h
                  obtain ⟨hab, _⟩ := h
                  obtain rfl := Option.some.inj hab
                  refine ⟨⟨by simpa [data_mk] using h1, ?_⟩, ⟨by simpa [data_mk] using h2, ?_⟩⟩
                  · intro d hd
                    rw [data_mk] at hd
                    exact List.mem_takeWhile_imp hd
                  · intro d hd
                    rw [data_mk] at hd
                    exact List.mem_takeWhile_imp hd
                · simp [hc3] at h
          · simp [hc2] at h
    · simp [optRange, hc] at h

theorem matchFORMAT_inv {s : String} {r : FormatMatch} (h : matchFORMAT s = some r) :
    ∃ r2 r3 r4 rg,
      optComp (s.data.dropWhile isCompChar) = (r.g2, r2) ∧
      optComp r2 = (r.g3, r3) ∧
      optPhase r3 = (r.g4, r4) ∧
      optRange r4 = (rg, []) ∧ r.g5 = rg.map Prod.fst ∧ r.g6 = rg.map Prod.snd ∧
      r.g1 = String.mk (s.data.takeWhile isCompChar) := by
  simp only [matchFORMAT] at h
  rcases h2 : optComp (s.data.dropWhile isCompChar) with ⟨g2, r2⟩
  rw [h2] at h
  rcases h3 : optComp r2 with ⟨g3, r3⟩
  rw [h3] at h
  rcases h4 : optPhase r3 with ⟨g4, r4⟩
  rw [h4] at h
  rcases h5 : optRange r4 with ⟨rg, r5⟩
  rw [h5] at h
  simp only at h
  by_cases hr5 : r5 = []
  · rw [if_pos hr5] at h
    obtain hr := Option.some.inj h
    subst hr
    subst hr5
    exact ⟨r2, r3, r4, rg, rfl, h3, h4, h5, rfl, rfl, rfl⟩
  · rw [if_neg hr5] at h
    exact absurd h (by simp)

theorem matchFORMAT_g4_digits {s : String} {r : FormatMatch} (h : matchFORMAT s = some r)
    {p : String} (hp : r.g4 = some p) : p.data ≠ [] ∧ ∀ c ∈ p.data, isDigitChar c = true := by
  obtain ⟨r2, r3, r4, rg, _, _, h4, _, _, _, _⟩ := matchFORMAT_inv h
  rw [hp] at h4
  exact optPhase_digits h4

theorem matchFORMAT_g5_digits {s : String} {r : FormatMatch} (h : matchFORMAT s = some r)
    {p : String} (hp : r.g5 = some p) : p.data ≠ [] ∧ ∀ c ∈ p.data, isDigitChar c = true := by
  obtain ⟨r2, r3, r4, rg, _, _, _, h5, hg5, _, _⟩ := matchFORMAT_inv h
  cases hrg : rg with
  | none => rw [hrg] at hg5; rw [hg5] at hp; simp at hp
  | some ab =>
    rw [hrg] at hg5 h5
    rw [hg5] at hp
    simp at hp
    obtain ⟨hd, _⟩ := optRange_digits h5
    rw [hp] at hd
    exact hd

theorem matchFORMAT_g6_digits {s : String} {r : FormatMatch} (h : matchFORMAT s = some r)
    {p : String} (hp : r.g6 = some p) : p.data ≠ [] ∧ ∀ c ∈ p.data, isDigitChar c = true := by
  obtain ⟨r2, r3, r4, rg, _, _, _, h5, _, hg6, _⟩ := matchFORMAT_inv h
  cases hrg : rg with
  | none => rw [hrg] at hg6; rw [hg6] at hp; simp at hp
  | some ab =>
    rw [hrg] at hg6 h5
    rw [hg6] at hp
    simp at hp
    obtain ⟨_, hd⟩ := optRange_digits h5
    rw [hp] at hd
    exact hd

theorem matchFORMAT_plain {s : String} (h : ∀ c ∈ s.data, isCompChar c = true) :
    matchFORMAT s = some ⟨s, none, none, none, none, none⟩ := by
  unfold matchFORMAT
  rw [takeWhile_all h, dropWhile_all h]
  simp [optComp_nil, optPhase_nil, optRange_nil, mk_data]

theorem matchFORMAT_sample_locus {s sample locus : String}
    (hd : s.data = sample.data ++ '#' :: locus.data)
    (hs : ∀ c ∈ sample.data, isCompChar c = true)
    (hl : ∀ c ∈ locus.data, isCompChar c = true) :
    matchFORMAT s = some ⟨sample, some locus, none, none, none, none⟩ := by
  have hhash : isCompChar '#' = false := by decide
  unfold matchFORMAT
  rw [hd, takeWhile_append_all _ hs, dropWhile_append_all _ hs,
    takeWhile_cons_neg _ hhash, dropWhile_cons_neg _ hhash, optComp_hash,
    takeWhile_all hl, dropWhile_all hl]
  simp [optComp_nil, optPhase_nil, optRange_nil, mk_data]

theorem optRange_closed {A B : List Char} (hA : A ≠ []) (hB : B ≠ [])
    (hdA : ∀ c ∈ A, isDigitChar c = true) (hdB : ∀ c ∈ B, isDigitChar c = true) :
    optRange ('[' :: (A ++ '-' :: (B ++ [']']))) = (some (String.mk A, String.mk B), []) := by
  have hdash : isDigitChar '-' = false := by decide
  have hrb : isDigitChar ']' = false := by decide
  simp [optRange, takeWhile_append_all _ hdA, dropWhile_append_all _ hdA,
    takeWhile_append_all _ hdB, dropWhile_append_all _ hdB,
    takeWhile_cons_neg _ hdash, dropWhile_cons_neg _ hdash,
    takeWhile_cons_neg _ hrb, dropWhile_cons_neg _ hrb, hA, hB]

theorem matchFORMAT_locus_range {s locus : String} {A B : List Char}
    (hd : s.data = locus.data ++ '[' :: (A ++ '-' :: (B ++ [']'])))
    (hl : ∀ c ∈ locus.data, isCompChar c = true)
    (hA : A ≠ []) (hB : B ≠ [])
    (hdA : ∀ c ∈ A, isDigitChar c = true) (hdB : ∀ c ∈ B, isDigitChar c = true) :
    matchFORMAT s =
      some ⟨locus, none, none, none, some (String.mk A), some (String.mk B)⟩ := by
  have hlb : isCompChar '[' = false := by decide
  unfold matchFORMAT
  rw [hd, takeWhile_append_all _ hl, dropWhile_append_all _ hl,
    takeWhile_cons_neg _ hlb, dropWhile_cons_neg _ hlb]
  simp only [List.append_nil]
  rw [optComp_cons_ne _ (by decide)]
  simp only
  rw [optComp_cons_ne _ (by decide)]
  simp only
  rw [optPhase_cons_ne _ (by decide)]
  simp only
  rw [optRange_closed hA hB hdA hdB]
  simp [mk_data]

theorem matchFORMAT_sample_locus_range {s sample locus : String} {A B : List Char}
    (hd : s.data = sample.data ++ '#' :: (locus.data ++ '[' :: (A ++ '-' :: (B ++ [']']))))
    (hs : ∀ c ∈ sample.data, isCompChar c = true)
    (hl : ∀ c ∈ locus.data, isCompChar c = true)
    (hA : A ≠ []) (hB : B ≠ [])
    (hdA : ∀ c ∈ A, isDigitChar c = true) (hdB : ∀ c ∈ B, isDigitChar c = true) :
    matchFORMAT s =
      some ⟨sample, some locus, none, none, some (String.mk A), some (String.mk B)⟩ := by
  have hhash : isCompChar '#' = false := by decide
  have hlb : isCompChar '[' = false := by decide
  unfold matchFORMAT
  rw [hd, takeWhile_append_all _ hs, dropWhile_append_all _ hs,
    takeWhile_cons_neg _ hhash, dropWhile_cons_neg _ hhash, optComp_hash,
    takeWhile_append_all _ hl, dropWhile_append_all _ hl,
    takeWhile_cons_neg _ hlb, dropWhile_cons_neg _ hlb]
  simp only [List.append_nil]
  rw [optComp_cons_ne _ (by decide)]
  simp only
  rw [optPhase_cons_ne _ (by decide)]
  simp only
  rw [optRange_closed hA hB hdA hdB]
  simp [mk_data]

theorem optComp_none {l r : List Char} (h : optComp l = (none, r)) :
    r = l ∧ ∀ t, l ≠ '#' :: t := by
  cases l with
  | nil =>
    simp [optComp] at h
    exact ⟨h, by simp⟩
  | cons c t =>
    by_cases hc : c = '#'
    · subst hc
      simp [optComp] at h
    · simp [optComp, hc] at h
      exact ⟨h.symm, fun u he => hc (List.cons.inj he).1⟩

theorem optPhase_some_head {l : List Char} {p : String} {r : List Char}
    (h : optPhase l = (some p, r)) : ∃ t, l = '#' :: t := by
  cases l with
  | nil => simp [optPhase] at h
  | cons c t =>
    by_cases hc : c = '#'
    · exact ⟨t, by rw [hc]⟩
    · simp [optPhase, hc] at h

theorem optComp_some_head {l : List Char} {p : String} {r : List Char}
    (h : optComp l = (some p, r)) : ∃ t, l = '#' :: t := by
  cases l with
  | nil => simp [optComp] at h
  | cons c t =>
    by_cases hc : c = '#'
    · exact ⟨t, by rw [hc]⟩
    · simp [optComp, hc] at h

theorem matchFORMAT_g4_g3 {s : String} {r : FormatMatch} (h : matchFORMAT s = some r)
    (h4 : r.g4.isSome = true) : r.g3.isSome = true := by
  obtain ⟨r2, r3, r4, rg, hc2, hc3, hp4, _, _, _, _⟩ := matchFORMAT_inv h
  cases hg4 : r.g4 with
  | none => rw [hg4] at h4; simp at h4
  | some p =>
    rw [hg4] at hp4
    obtain ⟨t, ht⟩ := optPhase_some_head hp4
    cases hg3 : r.g3 with
    | some _ => simp
    | none =>
      rw [hg3] at hc3
      obtain ⟨heq, hne⟩ := optComp_none hc3
      exact absurd (heq ▸ ht) (hne t)

theorem matchFORMAT_g3_g2 {s : String} {r : FormatMatch} (h : matchFORMAT s = some r)
    (h3 : r.g3.isSome = true) : r.g2.isSome = true := by
  obtain ⟨r2, r3, r4, rg, hc2, hc3, _, _, _, _, _⟩ := matchFORMAT_inv h
  cases hg3 : r.g3 with
  | none => rw [hg3] at h3; simp at h3
  | some p =>
    rw [hg3] at hc3
    obtain ⟨t, ht⟩ := optComp_some_head hc3
    cases hg2 : r.g2 with
    | some _ => simp
    | none =>
      rw [hg2] at hc2
      obtain ⟨heq, hne⟩ := optComp_none hc2
      exact absurd (heq ▸ ht) (hne t)

theorem parse_path_name_eq (s : String) :
    parse_path_name s =
      (match matchFORMAT s with
        | some r =>
          match slhOf r with
          | .error e => .error e
          | .ok (sample, locus, haplotype) =>
            match pbOf r with
            | .error e => .error e
            | .ok phase_block =>
              match subOf r with
              | .error e => .error e
              | .ok subrange =>
                .ok ⟨senseOf r, sample, locus, haplotype, phase_block, subrange⟩
        | none =>
          .ok ⟨.SENSE_GENERIC, NO_SAMPLE_NAME, s, NO_HAPLOTYPE, NO_PHASE_BLOCK, NO_SUBRANGE⟩) := by
  rfl

theorem slhOf_ok {r : FormatMatch} {x : String × String × Int} (h : slhOf r = .ok x) :
    (∃ l3, r.g3 = some l3 ∧ x.1 = r.g1 ∧ x.2.1 = l3 ∧
      stoll (r.g2.getD "") = .ok x.2.2) ∨
    (r.g3 = none ∧ ∃ l2, r.g2 = some l2 ∧ x.1 = r.g1 ∧ x.2.1 = l2 ∧
      x.2.2 = NO_HAPLOTYPE) ∨
    (r.g3 = none ∧ r.g2 = none ∧ x.1 = NO_SAMPLE_NAME ∧ x.2.1 = r.g1 ∧
      x.2.2 = NO_HAPLOTYPE) := by
  unfold slhOf at h
  cases hg3 : r.g3 with
  | some l3 =>
    rw [hg3] at h
    simp only at h
    cases hst : stoll (r.g2.getD "") with
    | error e => rw [hst] at h; simp at h
    | ok hv =>
      rw [hst] at h
      simp only at h
      obtain hx := (Except.ok.inj h).symm
      subst hx
      exact Or.inl ⟨l3, rfl, rfl, rfl, rfl⟩
  | none =>
    rw [hg3] at h
    simp only at h
    cases hg2 : r.g2 with
    | some l2 =>
      rw [hg2] at h
      simp only at h
      obtain hx := (Except.ok.inj h).symm
      subst hx
      exact Or.inr (Or.inl ⟨rfl, l2, rfl, rfl, rfl, rfl⟩)
    | none =>
      rw [hg2] at h
      simp only at h
      obtain hx := (Except.ok.inj h).symm
      subst hx
      exact Or.inr (Or.inr ⟨rfl, rfl, rfl, rfl, rfl⟩)

theorem pbOf_ok {r : FormatMatch} {v : Int} (h : pbOf r = .ok v) :
    (∃ p, r.g4 = some p ∧ stoll p = .ok v) ∨ (r.g4 = none ∧ v = NO_PHASE_BLOCK) := by
  unfold pbOf at h
  cases hg4 : r.g4 with
  | some p =>
    rw [hg4] at h
    exact Or.inl ⟨p, rfl, h⟩
  | none =>
    rw [hg4] at h
    simp only at h
    exact Or.inr ⟨rfl, (Except.ok.inj h).symm⟩

theorem subOf_ok {r : FormatMatch} {v : Int × Int} (h : subOf r = .ok v) :
    (∃ s5 st, r.g5 = some s5 ∧ stoll s5 = .ok st ∧
      ((∃ s6 en, r.g6 = some s6 ∧ stoll s6 = .ok en ∧ v = (st, en)) ∨
        (r.g6 = none ∧ v = (st, NO_END_POSITION)))) ∨
    (r.g5 = none ∧ v = NO_SUBRANGE) := by
  unfold subOf at h
  cases hg5 : r.g5 with
  | some s5 =>
    rw [hg5] at h
    simp only at h
    cases hs5 : stoll s5 with
    | error e => rw [hs5] at h; simp at h
    | ok st =>
      rw [hs5] at h
      simp only at h
      cases hg6 : r.g6 with
      | some s6 =>
        rw [hg6] at h
        simp only at h
        cases hs6 : stoll s6 with
        | error e => rw [hs6] at h; simp at h
        | ok en =>
          rw [hs6] at h
          simp only at h
          exact Or.inl ⟨s5, st, rfl, hs5, Or.inl ⟨s6, en, rfl, hs6, (Except.ok.inj h).symm⟩⟩
      | none =>
        rw [hg6] at h
        simp only at h
        exact Or.inl ⟨s5, st, rfl, hs5, Or.inr ⟨rfl, (Except.ok.inj h).symm⟩⟩
  | none =>
    rw [hg5] at h
    simp only at h
    exact Or.inr ⟨rfl, (Except.ok.inj h).symm⟩

theorem parse_fields_inv {s : String} {r : FormatMatch} {t : ParsedName}
    (hm : matchFORMAT s = some r) (h : parse_path_name s = .ok t) :
    ∃ slh pb sub, slhOf r = .ok slh ∧ pbOf r = .ok pb ∧ subOf r = .ok sub ∧
      t = ⟨senseOf r, slh.1, slh.2.1, slh.2.2, pb, sub⟩ := by
  rw [parse_path_name_eq, hm] at h
  simp only at h
  cases hx : slhOf r with
  | error e => rw [hx] at h; simp at h
  | ok x =>
    rw [hx] at h
    obtain ⟨a, b, c⟩ := x
    simp only at h
    cases hpb : pbOf r with
    | error e => rw [hpb] at h; simp at h
    | ok pb =>
      rw [hpb] at h
      simp only at h
      cases hsub : subOf r with
      | error e => rw [hsub] at h; simp at h
      | ok sub =>
        rw [hsub] at h
        simp only at h
        obtain ht := (Except.ok.inj h).symm
        subst ht
        exact ⟨(a, b, c), pb, sub, rfl, rfl, rfl, rfl⟩

theorem parse_ok_generic_inv {s : String} {t : ParsedName}
    (h : parse_path_name s = .ok t) (hg : t.sense = .SENSE_GENERIC) :
    matchFORMAT s = none ∧
      t = ⟨.SENSE_GENERIC, NO_SAMPLE_NAME, s, NO_HAPLOTYPE, NO_PHASE_BLOCK, NO_SUBRANGE⟩ := by
  cases hm : matchFORMAT s with
  | none =>
    rw [parse_path_name_eq, hm] at h
    simp only at h
    exact ⟨rfl, (Except.ok.inj h).symm⟩
  | some r =>
    obtain ⟨slh, pb, sub, _, _, _, ht⟩ := parse_fields_inv hm h
    rw [ht] at hg
    simp only [senseOf] at hg
    by_cases h4 : r.g4.isSome = true
    · rw [if_pos h4] at hg; exact absurd hg (by simp)
    · rw [if_neg h4] at hg; exact absurd hg (by simp)

/-- C10: every name string containing no '#' and no '[' (the empty string
included) matches the structured grammar through its first component alone
and parses as REFERENCE, never GENERIC, with sample NO_SAMPLE_NAME, the
whole name as locus, and haplotype, phase block and subrange all absent;
for the empty name the locus is the empty string, identical to the
NO_LOCUS_NAME sentinel. -/
theorem c10_separator_free_names_are_reference (s : String)
    (h1 : ¬ '#' ∈ s.data) (h2 : ¬ '[' ∈ s.data) :
    parse_path_name s =
      .ok ⟨.SENSE_REFERENCE, NO_SAMPLE_NAME, s, NO_HAPLOTYPE, NO_PHASE_BLOCK, NO_SUBRANGE⟩ ∧
    parse_sense s = .SENSE_REFERENCE ∧ NO_LOCUS_NAME = "" := by
  have hcomp : ∀ c ∈ s.data, isCompChar c = true := by
    intro c hc
    simp [isCompChar]
    exact ⟨fun e => h1 (e ▸ hc), fun e => h2 (e ▸ hc)⟩
  refine ⟨?_, ?_, rfl⟩
  · rw [parse_path_name_eq, matchFORMAT_plain hcomp]
    rfl
  · unfold parse_sense
    rw [matchFORMAT_plain hcomp]
    rfl

theorem c10_witness :
    parse_path_name "" =
      .ok ⟨.SENSE_REFERENCE, NO_SAMPLE_NAME, "", NO_HAPLOTYPE, NO_PHASE_BLOCK, NO_SUBRANGE⟩ ∧
    parse_sense "" = .SENSE_REFERENCE ∧ NO_LOCUS_NAME = "" :=
  c10_separator_free_names_are_reference "" (by decide) (by decide)

/-- C2 counterexample: the string consisting of one '[' is not accepted by
the anchored FORMAT grammar, refuting the claim that the anchored match
always succeeds; the parser still falls back to GENERIC rather than
raising an error. -/
theorem c2_counterexample :
    matchFORMAT "[" = none ∧
    parse_path_name "[" =
      .ok ⟨.SENSE_GENERIC, NO_SAMPLE_NAME, "[", NO_HAPLOTYPE, NO_PHASE_BLOCK, NO_SUBRANGE⟩ :=
  ⟨rfl, rfl⟩

/-- C2 (amended): not every string is accepted by the structured grammar
(a '[' outside a complete bracketed range defeats the anchored match), but
every string that fails to match is treated as GENERIC with the whole
string as locus and every other field absent, never as a thrown error. -/
theorem c2_generic_fallback (s : String) (h : matchFORMAT s = none) :
    parse_path_name s =
      .ok ⟨.SENSE_GENERIC, NO_SAMPLE_NAME, s, NO_HAPLOTYPE, NO_PHASE_BLOCK, NO_SUBRANGE⟩ := by
  rw [parse_path_name_eq, h]

theorem c2_witness :
    parse_path_name "a[b" =
      .ok ⟨.SENSE_GENERIC, NO_SAMPLE_NAME, "a[b", NO_HAPLOTYPE, NO_PHASE_BLOCK, NO_SUBRANGE⟩ :=
  c2_generic_fallback "a[b" rfl

/-- C3: with the FORMAT regex as written the dash and end number are
mandatory inside a bracketed range, so "1[100]" fails the anchored match
entirely and parses as GENERIC with locus "1[100]" and no subrange,
contrary to the claimed open-ended subrange (100, NO_END_POSITION); a
closed range such as "1[100-200]" does match, isolating the missing
question mark on the dash group. -/
theorem c3_open_range_rejected :
    matchFORMAT "1[100]" = none ∧
    parse_path_name "1[100]" =
      .ok ⟨.SENSE_GENERIC, NO_SAMPLE_NAME, "1[100]", NO_HAPLOTYPE, NO_PHASE_BLOCK, NO_SUBRANGE⟩ ∧
    parse_subrange "1[100]" = .ok NO_SUBRANGE ∧
    matchFORMAT "1[100-200]" = some ⟨"1", none, none, none, some "100", some "200"⟩ ∧
    parse_subrange "1[100-200]" = .ok (100, 200) :=
  ⟨rfl, rfl, rfl, rfl, rfl⟩

/-- C4: for every name accepted by the structured grammar the classified
sense is HAPLOTYPE exactly when the numeric fourth capture (phase block)
participated and REFERENCE otherwise; "NA19239#1#chr1#0" is a HAPLOTYPE
with sample NA19239, haplotype 1, locus chr1, phase block 0, while
"NA19239#1#chr1" is a REFERENCE. -/
theorem c4_sense_classification :
    (∀ (s : String) (r : FormatMatch), matchFORMAT s = some r →
      parse_sense s = (if r.g4.isSome then Sense.SENSE_HAPLOTYPE else Sense.SENSE_REFERENCE)) ∧
    parse_path_name "NA19239#1#chr1#0" =
      .ok ⟨.SENSE_HAPLOTYPE, "NA19239", "chr1", 1, 0, NO_SUBRANGE⟩ ∧
    parse_path_name "NA19239#1#chr1" =
      .ok ⟨.SENSE_REFERENCE, "NA19239", "chr1", 1, NO_PHASE_BLOCK, NO_SUBRANGE⟩ := by
  refine ⟨?_, rfl, rfl⟩
  intro s r h
  unfold parse_sense
  rw [h]

theorem c4_witness : parse_sense "a#b#c#0" = Sense.SENSE_HAPLOTYPE := by
  have h := c4_sense_classification.1 "a#b#c#0"
    ⟨"a", some "b", some "c", some "0", none, none⟩ rfl
  simpa using h

/-- C6 (amended): for every name accepted by the grammar, the phase-block
capture (group 4) and the range captures (groups 5 and 6) are nonempty
runs of decimal digits, as the regex character classes guarantee; the
haplotype numeral, however, is read from group 2, an arbitrary
separator-free component, so the fatal numeral-parse branch is reachable
for grammar-conformant input. -/
theorem c6_grammar_digit_guarantee :
    ∀ (s : String) (r : FormatMatch), matchFORMAT s = some r →
      (∀ p, r.g4 = some p → p.data ≠ [] ∧ ∀ c ∈ p.data, isDigitChar c = true) ∧
      (∀ p, r.g5 = some p → p.data ≠ [] ∧ ∀ c ∈ p.data, isDigitChar c = true) ∧
      (∀ p, r.g6 = some p → p.data ≠ [] ∧ ∀ c ∈ p.data, isDigitChar c = true) :=
  fun _ _ h =>
    ⟨fun _ hp => matchFORMAT_g4_digits h hp,
      fun _ hp => matchFORMAT_g5_digits h hp,
      fun _ hp => matchFORMAT_g6_digits h hp⟩

theorem c6_witness :
    ("0" : String).data ≠ [] ∧ ∀ c ∈ ("0" : String).data, isDigitChar c = true :=
  (c6_grammar_digit_guarantee "x#1#y#0"
    ⟨"x", some "1", some "y", some "0", none, none⟩ rfl).1 "0" rfl

/-- C6 counterexample: "a#b#c#0" is accepted by the grammar, with the
non-numeric component "b" in the haplotype position, and haplotype
extraction reaches the fatal std::stoll error, refuting the claim that
numeral-parse failure is unreachable for grammar-conformant input. -/
theorem c6_counterexample :
    matchFORMAT "a#b#c#0" = some ⟨"a", some "b", some "c", some "0", none, none⟩ ∧
    parse_haplotype "a#b#c#0" = .error "stoll: invalid_argument" ∧
    parse_path_name "a#b#c#0" = .error "stoll: invalid_argument" :=
  ⟨rfl, rfl, rfl⟩

/-- C5 counterexample: "s#-1#l#0" is classified HAPLOTYPE, yet its parsed
haplotype equals the NO_HAPLOTYPE sentinel -1, because the haplotype
component is not digit-constrained and std::stoll accepts a sign, refuting
the claim that a HAPLOTYPE classification guarantees a present haplotype. -/
theorem c5_counterexample :
    parse_path_name "s#-1#l#0" =
      .ok ⟨.SENSE_HAPLOTYPE, "s", "l", -1, 0, NO_SUBRANGE⟩ ∧
    (ParsedName.mk .SENSE_HAPLOTYPE "s" "l" (-1) 0 NO_SUBRANGE).haplotype = NO_HAPLOTYPE :=
  ⟨rfl, rfl⟩

/-- C5 (amended): every name classified HAPLOTYPE has a present phase
block (a digit run never parses to the sentinel); its haplotype is
likewise present whenever the haplotype component is a digit run, though a
signed component such as "-1" can produce the sentinel itself; and every
name classified GENERIC has absent sample, haplotype and phase block. -/
theorem c5_sense_field_consistency :
    (∀ (s : String) (t : ParsedName), parse_path_name s = .ok t →
      (t.sense = .SENSE_HAPLOTYPE → t.phase_block ≠ NO_PHASE_BLOCK) ∧
      (t.sense = .SENSE_GENERIC →
        t.sample = NO_SAMPLE_NAME ∧ t.haplotype = NO_HAPLOTYPE ∧
        t.phase_block = NO_PHASE_BLOCK)) ∧
    (∀ (s : String) (r : FormatMatch) (h2 : String) (t : ParsedName),
      matchFORMAT s = some r → r.g2 = some h2 → h2.data ≠ [] →
      (∀ c ∈ h2.data, isDigitChar c = true) →
      parse_path_name s = .ok t → t.sense = .SENSE_HAPLOTYPE →
      t.haplotype ≠ NO_HAPLOTYPE) := by
  constructor
  · intro s t h
    constructor
    · intro hh
      cases hm : matchFORMAT s with
      | none =>
        rw [parse_path_name_eq, hm] at h
        simp only at h
        obtain ht := (Except.ok.inj h).symm
        subst ht
        simp at hh
      | some r =>
        obtain ⟨slh, pb, sub, hslh, hpb, hsub, ht⟩ := parse_fields_inv hm h
        subst ht
        simp only at hh ⊢
        have h4 : r.g4.isSome = true := by
          by_contra h4
          simp only [senseOf, if_neg h4] at hh
          exact absurd hh (by simp)
        obtain ⟨p, hp4, hps⟩ | ⟨hnone, _⟩ := pbOf_ok hpb
        · obtain ⟨hne, hdig⟩ := matchFORMAT_g4_digits hm hp4
          have hval := stoll_digit_list hne hdig
          rw [mk_data, hps] at hval
          obtain hpbv := Except.ok.inj hval
          rw [hpbv]
          simp [NO_PHASE_BLOCK]
        · rw [hnone] at h4
          simp at h4
    · intro hg
      obtain ⟨hm, ht⟩ := parse_ok_generic_inv h hg
      rw [ht]
      exact ⟨rfl, rfl, rfl⟩
  · intro s r h2 t hm hg2 hne hdig h hh
    obtain ⟨slh, pb, sub, hslh, hpb, hsub, ht⟩ := parse_fields_inv hm h
    subst ht
    simp only at hh ⊢
    have h4 : r.g4.isSome = true := by
      by_contra h4
      simp only [senseOf, if_neg h4] at hh
      exact absurd hh (by simp)
    have h3 : r.g3.isSome = true := matchFORMAT_g4_g3 hm h4
    rcases slhOf_ok hslh with ⟨l3, hg3, hs1, hl1, hstoll⟩ | ⟨hg3, _⟩ | ⟨hg3, _⟩
    · rw [hg2] at hstoll
      simp only [Option.getD_some] at hstoll
      have hval := stoll_digit_list hne hdig
      rw [mk_data, hstoll] at hval
      obtain hhv := Except.ok.inj hval
      rw [hhv]
      simp [NO_HAPLOTYPE]
    · rw [hg3] at h3
      simp at h3
    · rw [hg3] at h3
      simp at h3

theorem c5_witness :
    (ParsedName.mk .SENSE_HAPLOTYPE "s" "l" 1 0 NO_SUBRANGE).haplotype ≠ NO_HAPLOTYPE :=
  c5_sense_field_consistency.2 "s#1#l#0" ⟨"s", some "1", some "l", some "0", none, none⟩
    "1" ⟨.SENSE_HAPLOTYPE, "s", "l", 1, 0, NO_SUBRANGE⟩
    rfl rfl (by decide) (by decide) rfl rfl

theorem create_path_name_behaviour (sense : Sense) (sample locus : String)
    (haplotype phase_block : Int) (subrange : Int × Int) :
    ((create_path_name sense sample locus haplotype phase_block subrange).isOk =
      !(createNameBadCombo sense sample locus haplotype phase_block)) ∧
    (createNameBadCombo sense sample locus haplotype phase_block = false →
      create_path_name sense sample locus haplotype phase_block subrange =
        .ok (createNameConcat sample locus haplotype phase_block subrange)) := by
  cases sense <;>
    by_cases hs : sample = NO_SAMPLE_NAME <;>
    by_cases hl : locus = NO_LOCUS_NAME <;>
    by_cases hh : haplotype = NO_HAPLOTYPE <;>
    by_cases hp : phase_block = NO_PHASE_BLOCK <;>
    by_cases hr : subrange = NO_SUBRANGE <;>
    simp [create_path_name, createNameBadCombo, createNameConcat, Except.isOk, Except.toBool,
      hs, hl, hh, hp, hr]

/-- C7: create_path_name fails exactly on the contradictory sense/field
combinations (non-empty sample with GENERIC; absent locus for every sense;
present haplotype with GENERIC; absent haplotype with HAPLOTYPE; present
phase block with GENERIC or REFERENCE; absent phase block with HAPLOTYPE),
and otherwise succeeds, emitting the fixed concatenation sample prefix,
locus, haplotype suffix, phase-block suffix, range suffix, a subrange
being accepted for any sense. -/
theorem c7_create_path_name_spec (sense : Sense) (sample locus : String)
    (haplotype phase_block : Int) (subrange : Int × Int) :
    ((create_path_name sense sample locus haplotype phase_block subrange).isOk =
      !(createNameBadCombo sense sample locus haplotype phase_block)) ∧
    (createNameBadCombo sense sample locus haplotype phase_block = false →
      create_path_name sense sample locus haplotype phase_block subrange =
        .ok (createNameConcat sample locus haplotype phase_block subrange)) :=
  create_path_name_behaviour sense sample locus haplotype phase_block subrange

theorem c7_witness :
    create_path_name .SENSE_HAPLOTYPE "NA19239" "chr1" 1 0 (100, 200) =
      .ok "NA19239#chr1#1#0[100-200]" := by
  have h := (c7_create_path_name_spec .SENSE_HAPLOTYPE "NA19239" "chr1" 1 0 (100, 200)).2
    (by decide)
  rw [h]
  rfl

theorem skip_chain (c1 c2 c3 x : Bool) :
    (if c1 = true then true else if c2 = true then true else if c3 = true then true else x) =
      (if (!c1 && !c2 && !c3) = true then x else true) := by
  cases c1 <;> cases c2 <;> cases c3 <;> simp

theorem opt_filter_not {α : Type} [BEq α] (o : Option (List α)) (x : α) :
    (match o with | some s => s.contains x | none => true) =
      !(o.isSome && !((o.getD []).contains x)) := by
  cases o <;> simp

theorem matching_iteratee_eq {H : Type} (gpn : H → String) (senses : Option (List Sense))
    (samples loci : Option (List String)) (it : H → Bool) (h : H) :
    matching_iteratee gpn senses samples loci it h =
      (if path_matches gpn senses samples loci h then it h else true) := by
  unfold matching_iteratee path_matches
  rw [skip_chain, ← opt_filter_not senses (parse_sense (gpn h)),
    ← opt_filter_not samples (parse_sample_name (gpn h)),
    ← opt_filter_not loci (parse_locus_name (gpn h))]
  cases senses <;> cases samples <;> cases loci <;> rfl

theorem for_each_path_handle_impl_all {H : Type} (l : List H) (it : H → Bool) :
    (for_each_path_handle_impl l it).1 = l.all it := by
  induction l with
  | nil => rfl
  | cons hd tl ih =>
    by_cases hit : it hd = true <;> simp [for_each_path_handle_impl, hit, ih]

/-- C9: the filtered path iteration visits, in the enumeration order of the
underlying primitive, exactly the subsequence of handles whose derived
sense, sample and locus each belong to the supplied sets (an absent set
meaning no constraint): its outcome equals running the plain enumeration
over the filtered handle list, the handles actually forwarded to the
caller's iteratee are exactly that filtered subsequence up to the first
stop, and the outcome is true exactly when no visited handle stopped the
iteration. -/
theorem c9_for_each_path_matching (H : Type) (gpn : H → String) (handles : List H)
    (senses : Option (List Sense)) (samples loci : Option (List String)) (it : H → Bool) :
    for_each_path_matching_impl gpn handles senses samples loci it =
      (for_each_path_handle_impl (handles.filter (path_matches gpn senses samples loci)) it).1 ∧
    (for_each_path_handle_impl handles (matching_iteratee gpn senses samples loci it)).2.filter
        (path_matches gpn senses samples loci) =
      (for_each_path_handle_impl (handles.filter (path_matches gpn senses samples loci)) it).2 ∧
    (for_each_path_handle_impl (handles.filter (path_matches gpn senses samples loci)) it).1 =
      (handles.filter (path_matches gpn senses samples loci)).all it := by
  have key : ∀ l : List H,
      (for_each_path_handle_impl l (matching_iteratee gpn senses samples loci it)).1 =
        (for_each_path_handle_impl (l.filter (path_matches gpn senses samples loci)) it).1 ∧
      (for_each_path_handle_impl l (matching_iteratee gpn senses samples loci it)).2.filter
          (path_matches gpn senses samples loci) =
        (for_each_path_handle_impl (l.filter (path_matches gpn senses samples loci)) it).2 := by
    intro l
    induction l with
    | nil => exact ⟨rfl, rfl⟩
    | cons hd tl ih =>
      by_cases hpm : path_matches gpn senses samples loci hd = true
      · by_cases hit : it hd = true
        · simp [for_each_path_handle_impl, matching_iteratee_eq, hpm, hit,
            List.filter_cons, ih.1, ih.2]
        · simp [for_each_path_handle_impl, matching_iteratee_eq, hpm, hit, List.filter_cons]
      · simp [for_each_path_handle_impl, matching_iteratee_eq, hpm, List.filter_cons,
          ih.1, ih.2]
  exact ⟨(key handles).1, (key handles).2, for_each_path_handle_impl_all _ it⟩

theorem c9_witness :
    for_each_path_matching_impl (fun n : Nat => if n = 0 then "GRCh38#chrM" else "x") [0, 1, 2]
      (some [Sense.SENSE_REFERENCE]) none (some ["chrM"]) (fun _ => true) = true := by
  have h := (c9_for_each_path_matching Nat
    (fun n : Nat => if n = 0 then "GRCh38#chrM" else "x") [0, 1, 2]
    (some [Sense.SENSE_REFERENCE]) none (some ["chrM"]) (fun _ => true)).1
  rw [h]
  rfl

theorem nil_append_str (s : String) : "" ++ s = s := rfl

/-- C1 counterexample: two validated tuples fail the round trip.  A
GENERIC tuple with locus "a" builds the name "a", which re-parses as
REFERENCE; and a REFERENCE tuple with sample "s", locus "7" and haplotype
5 builds "s#7#5" (the builder emits sample, locus, haplotype in that
order), which the parser reads back as locus "5" and haplotype 7. -/
theorem c1_counterexample :
    (create_path_name .SENSE_GENERIC NO_SAMPLE_NAME "a" NO_HAPLOTYPE NO_PHASE_BLOCK NO_SUBRANGE =
        .ok "a" ∧
      parse_path_name "a" =
        .ok ⟨.SENSE_REFERENCE, NO_SAMPLE_NAME, "a", NO_HAPLOTYPE, NO_PHASE_BLOCK, NO_SUBRANGE⟩ ∧
      Sense.SENSE_REFERENCE ≠ Sense.SENSE_GENERIC) ∧
    (create_path_name .SENSE_REFERENCE "s" "7" 5 NO_PHASE_BLOCK NO_SUBRANGE = .ok "s#7#5" ∧
      parse_path_name "s#7#5" =
        .ok ⟨.SENSE_REFERENCE, "s", "5", 7, NO_PHASE_BLOCK, NO_SUBRANGE⟩ ∧
      parse_path_name "s#7#5" ≠
        .ok ⟨.SENSE_REFERENCE, "s", "7", 5, NO_PHASE_BLOCK, NO_SUBRANGE⟩) :=
  ⟨⟨rfl, rfl, by decide⟩, ⟨rfl, rfl, by decide⟩⟩

/-- C1 (amended): the round trip parse(build(tuple)) = tuple holds for
every validated tuple of sense REFERENCE whose haplotype and phase block
are absent, whose sample and locus contain neither '#' nor '[', and whose
subrange is either absent or has both endpoints present and nonnegative.
It fails beyond that: GENERIC tuples with grammar-matching loci re-parse
as REFERENCE, tuples with a haplotype are emitted in an order the parser
reads back differently, and open-ended subranges are rejected by the
range grammar. -/
theorem c1_round_trip_reference (sample locus : String) (sub : Int × Int)
    (hl : locus ≠ NO_LOCUS_NAME)
    (hs : ∀ c ∈ sample.data, isCompChar c = true)
    (hlc : ∀ c ∈ locus.data, isCompChar c = true)
    (hsub : sub = NO_SUBRANGE ∨ (0 ≤ sub.1 ∧ 0 ≤ sub.2)) :
    ∃ name,
      create_path_name .SENSE_REFERENCE sample locus NO_HAPLOTYPE NO_PHASE_BLOCK sub =
        .ok name ∧
      parse_path_name name =
        .ok ⟨.SENSE_REFERENCE, sample, locus, NO_HAPLOTYPE, NO_PHASE_BLOCK, sub⟩ := by
  have hok := (create_path_name_behaviour .SENSE_REFERENCE sample locus
    NO_HAPLOTYPE NO_PHASE_BLOCK sub).2 (by simp [createNameBadCombo, hl])
  refine ⟨createNameConcat sample locus NO_HAPLOTYPE NO_PHASE_BLOCK sub, hok, ?_⟩
  rcases hsub with hsubn | ⟨ha, hb⟩
  · subst hsubn
    by_cases hsam : sample = NO_SAMPLE_NAME
    · have hcc : createNameConcat sample locus NO_HAPLOTYPE NO_PHASE_BLOCK NO_SUBRANGE =
          locus := by
        simp [createNameConcat, hsam, nil_append_str]
      rw [hcc, parse_path_name_eq, matchFORMAT_plain hlc]
      simp [slhOf, pbOf, subOf, senseOf, hsam, NO_SAMPLE_NAME]
    · have hcc : createNameConcat sample locus NO_HAPLOTYPE NO_PHASE_BLOCK NO_SUBRANGE =
          sample.push SEPARATOR ++ locus := by
        simp [createNameConcat, hsam]
      rw [hcc]
      have hd : (sample.push SEPARATOR ++ locus).data =
          sample.data ++ '#' :: locus.data := by
        simp [data_append, data_push, SEPARATOR]
      rw [parse_path_name_eq, matchFORMAT_sample_locus hd hs hlc]
      rfl
  · obtain ⟨a, b⟩ := sub
    simp only at ha hb
    have hane : a ≠ NO_HAPLOTYPE := by simp [NO_HAPLOTYPE]; omega
    have hbne : b ≠ NO_END_POSITION := by simp [NO_END_POSITION]; omega
    have hsubne : ((a, b) : Int × Int) ≠ NO_SUBRANGE := by
      simp [NO_SUBRANGE, Prod.ext_iff]
      intro e
      omega
    have hAd : ∀ c ∈ (intString a).data, isDigitChar c = true := by
      rw [intString_of_nonneg ha]
      exact natDecStr_digits a.toNat
    have hAne : (intString a).data ≠ [] := by
      rw [intString_of_nonneg ha]
      exact natDecStr_ne_nil a.toNat
    have hBd : ∀ c ∈ (intString b).data, isDigitChar c = true := by
      rw [intString_of_nonneg hb]
      exact natDecStr_digits b.toNat
    have hBne : (intString b).data ≠ [] := by
      rw [intString_of_nonneg hb]
      exact natDecStr_ne_nil b.toNat
    by_cases hsam : sample = NO_SAMPLE_NAME
    · have hd : (createNameConcat sample locus NO_HAPLOTYPE NO_PHASE_BLOCK (a, b)).data =
          locus.data ++ '[' :: ((intString a).data ++ '-' :: ((intString b).data ++ [']'])) := by
        simp [createNameConcat, hsam, hsubne, hbne, nil_append_str, data_append, data_push,
          data_mk, RANGE_START_SEPARATOR, RANGE_TERMINATOR, List.append_assoc]
      rw [parse_path_name_eq,
        matchFORMAT_locus_range hd hlc hAne hBne hAd hBd]
      simp only [slhOf, pbOf, subOf, senseOf, mk_data, stoll_intString ha, stoll_intString hb]
      simp [hsam, NO_SAMPLE_NAME]
    · have hd : (createNameConcat sample locus NO_HAPLOTYPE NO_PHASE_BLOCK (a, b)).data =
          sample.data ++ '#' ::
            (locus.data ++ '[' :: ((intString a).data ++ '-' :: ((intString b).data ++ [']']))) := by
        simp [createNameConcat, hsam, hsubne, hbne, data_append, data_push, data_mk,
          SEPARATOR, RANGE_START_SEPARATOR, RANGE_TERMINATOR, List.append_assoc]
      rw [parse_path_name_eq,
        matchFORMAT_sample_locus_range hd hs hlc hAne hBne hAd hBd]
      simp only [slhOf, pbOf, subOf, senseOf, mk_data, stoll_intString ha, stoll_intString hb]
      rfl

theorem c1_witness :
    ∃ name,
      create_path_name .SENSE_REFERENCE "GRCh38" "chrM" NO_HAPLOTYPE NO_PHASE_BLOCK (300, 400) =
        .ok name ∧
      parse_path_name name =
        .ok ⟨.SENSE_REFERENCE, "GRCh38", "chrM", NO_HAPLOTYPE, NO_PHASE_BLOCK, (300, 400)⟩ :=
  c1_round_trip_reference "GRCh38" "chrM" (300, 400) (by decide) (by decide) (by decide)
    (Or.inr (by decide))

/-- C8: whenever the all-fields extraction parse_path_name succeeds (no
numeral-parse error occurs), every single-field accessor (parse_sense,
parse_sample_name, parse_locus_name, parse_haplotype, parse_phase_block,
parse_subrange) returns exactly the corresponding field of its result:
the independently implemented accessors never disagree with the combined
parse. -/
theorem c8_accessors_agree (s : String) (t : ParsedName)
    (h : parse_path_name s = .ok t) :
    parse_sense s = t.sense ∧
    parse_sample_name s = t.sample ∧
    parse_locus_name s = t.locus ∧
    parse_haplotype s = .ok t.haplotype ∧
    parse_phase_block s = .ok t.phase_block ∧
    parse_subrange s = .ok t.subrange := by
  cases hm : matchFORMAT s with
  | none =>
    rw [parse_path_name_eq, hm] at h
    simp only at h
    obtain ht := (Except.ok.inj h).symm
    subst ht
    exact ⟨by simp [parse_sense, hm], by simp [parse_sample_name, hm],
      by simp [parse_locus_name, hm], by simp [parse_haplotype, hm],
      by simp [parse_phase_block, hm], by simp [parse_subrange, hm, subOf]⟩
  | some r =>
    obtain ⟨slh, pb, sub, hslh, hpb, hsub, ht⟩ := parse_fields_inv hm h
    subst ht
    refine ⟨?_, ?_, ?_, ?_, ?_, ?_⟩
    · simp [parse_sense, hm, senseOf]
    · rcases slhOf_ok hslh with ⟨l3, hg3, hs1, hl1, _⟩ | ⟨hg3, l2, hg2, hs1, hl1, _⟩ |
        ⟨hg3, hg2, hs1, hl1, _⟩
      · simp [parse_sample_name, hm, hg3, hs1]
      · simp [parse_sample_name, hm, hg3, hg2, hs1]
      · simp [parse_sample_name, hm, hg3, hg2, hs1]
    · rcases slhOf_ok hslh with ⟨l3, hg3, hs1, hl1, _⟩ | ⟨hg3, l2, hg2, hs1, hl1, _⟩ |
        ⟨hg3, hg2, hs1, hl1, _⟩
      · simp [parse_locus_name, hm, hg3, hl1]
      · simp [parse_locus_name, hm, hg3, hg2, hl1]
      · simp [parse_locus_name, hm, hg3, hg2, hl1]
    · rcases slhOf_ok hslh with ⟨l3, hg3, hs1, hl1, hstoll⟩ | ⟨hg3, l2, hg2, hs1, hl1, hh⟩ |
        ⟨hg3, hg2, hs1, hl1, hh⟩
      · simp [parse_haplotype, hm, hg3, hstoll]
      · simp [parse_haplotype, hm, hg3, hh]
      · simp [parse_haplotype, hm, hg3, hh]
    · simp only [parse_phase_block, hm]
      exact hpb
    · simp only [parse_subrange, hm]
      exact hsub

theorem c8_witness :
    parse_sense "CHM13#chr12[300-400]" = Sense.SENSE_REFERENCE ∧
    parse_sample_name "CHM13#chr12[300-400]" = "CHM13" ∧
    parse_locus_name "CHM13#chr12[300-400]" = "chr12" ∧
    parse_haplotype "CHM13#chr12[300-400]" = .ok NO_HAPLOTYPE ∧
    parse_phase_block "CHM13#chr12[300-400]" = .ok NO_PHASE_BLOCK ∧
    parse_subrange "CHM13#chr12[300-400]" = .ok (300, 400) :=
  c8_accessors_agree "CHM13#chr12[300-400]"
    ⟨.SENSE_REFERENCE, "CHM13", "chr12", NO_HAPLOTYPE, NO_PHASE_BLOCK, (300, 400)⟩ rfl

end handlegraph
